import Mathlib

/-!
Shallow embedding of the media-proxy server (`src/media-proxy/server.mjs`).

The repository ships three variants of the same server file (a Jellyfin
variant, a plain-Tautulli variant, and a Tautulli+Plex variant).  The
definitions below embed, variant by variant, the pure decision logic that
the claims are about: the timestamp extractor `getWatchedAt`, the poster
URL builders `posterFromTautulli` (plain-Tautulli variant) and
`posterFromTautulliPlex` (Tautulli+Plex variant), the activity-bucket
aggregators `buildWeeklyActivityData` and `buildMonthlyActivityData`
(Jellyfin variant), the recently-watched / recently-added item assembly
loops (Tautulli+Plex variant), the image-proxy response decisions, and the
TTL cache `getC` / `setC`.

JavaScript values flowing through the extractor are modelled by `JsVal`
(numbers are modelled as integers; floats and `NaN` inputs are outside the
model).  `Date.parse` is implementation-defined for non-ISO strings, so the
extractor is parameterised by a `dateParse : JsVal → Option Int` argument
(`none` models `NaN`); every theorem that does not depend on string parsing
quantifies over it.  Clock reads (`Date.now()` / `new Date()`) inside a
function are passed in as an explicit `now : Int` argument denoting the
wall-clock instant of the call.
-/

set_option maxRecDepth 16384

/-- A loosely-typed JavaScript value as it appears in upstream JSON
records: `undefined`, `null`, a boolean, an (integer) number, or a
string. -/
inductive JsVal where
  | undef : JsVal
  | null : JsVal
  | bool : Bool → JsVal
  | num : Int → JsVal
  | str : String → JsVal
deriving DecidableEq, Repr

/-- JavaScript truthiness test (`!v`): `undefined`, `null`, `false`, `0`
and the empty string are falsy. -/
def jsFalsy : JsVal → Bool
  | .undef => true
  | .null => true
  | .bool b => !b
  | .num n => n == 0
  | .str s => s == ""

/-- JavaScript `a || b` on loose values: the first operand if truthy,
otherwise the second. -/
def jsOr (a b : JsVal) : JsVal := if jsFalsy a then b else a

/-- JavaScript string coercion (template interpolation) of a loose
value. -/
def jsToString : JsVal → String
  | .undef => "undefined"
  | .null => "null"
  | .bool b => cond b "true" "false"
  | .num n => toString n
  | .str s => s

/-- A raw Tautulli history / recently-added record, restricted to the
fields the server reads.  Unlisted JSON fields are never consulted by the
embedded code, so they are omitted.  Absent fields are `JsVal.undef`
(resp. `none` for the image fields, which the code only ever treats as
optional strings). -/
structure TautulliRecord where
  title : JsVal := .undef
  full_title : JsVal := .undef
  media_title : JsVal := .undef
  grandparent_title : JsVal := .undef
  parent_title : JsVal := .undef
  original_title : JsVal := .undef
  media_type : JsVal := .undef
  section_type : JsVal := .undef
  year : JsVal := .undef
  added_at : JsVal := .undef
  viewed_at : JsVal := .undef
  date : JsVal := .undef
  started : JsVal := .undef
  time : JsVal := .undef
  last_played : JsVal := .undef
  played_at : JsVal := .undef
  event_time : JsVal := .undef
  thumb_url : Option String := none
  thumb : Option String := none
  parent_thumb : Option String := none
deriving DecidableEq, Repr

/-- The ordered candidate list scanned by `getWatchedAt`:
`[x.viewed_at, x.date, x.started, x.time, x.last_played, x.played_at,
x.event_time]`. -/
def candidatesOf (x : TautulliRecord) : List JsVal :=
  [x.viewed_at, x.date, x.started, x.time, x.last_played, x.played_at, x.event_time]

/-- The candidate scan loop of `getWatchedAt`: skip falsy candidates
(`if (!c) continue`); a number `c` with `100000 < c < 9999999999` is
epoch-seconds (`return c * 1000`); a number `c ≥ 9999999999` is already
epoch-milliseconds (`return c`); anything else is handed to `Date.parse`
(modelled by the `dateParse` parameter; `none` models `NaN`, in which case
the scan continues with the next candidate). -/
def scanWatchedAt (dateParse : JsVal → Option Int) : List JsVal → Option Int
  | [] => none
  | c :: rest =>
    if jsFalsy c then scanWatchedAt dateParse rest
    else
      match c with
      | .num n =>
        if 100000 < n ∧ n < 9999999999 then some (n * 1000)
        else if 9999999999 ≤ n then some n
        else
          match dateParse (.num n) with
          | some t => some t
          | none => scanWatchedAt dateParse rest
      | c =>
        match dateParse c with
        | some t => some t
        | none => scanWatchedAt dateParse rest

/-- `getWatchedAt(x)`: scan the timestamp candidates of a history record;
`none` models the JavaScript `null` result. -/
def getWatchedAt (dateParse : JsVal → Option Int) (x : TautulliRecord) : Option Int :=
  scanWatchedAt dateParse (candidatesOf x)

/-- A `Date.parse` model that fails on every input (`NaN` everywhere).
Real engines return `NaN` on the inputs it is used with below; in
particular V8 and SpiderMonkey both reject the bare numeral string
`"100000"` (six digits is neither a four-digit ISO year nor an expanded
`±YYYYYY` year). -/
def dateParseNone : JsVal → Option Int := fun _ => none

-- sanity checks
example : scanWatchedAt dateParseNone [.num 100000] = none := by decide
example : scanWatchedAt dateParseNone [.num 100001] = some 100001000 := by decide
example : scanWatchedAt dateParseNone [.num 9999999999] = some 9999999999 := by decide
example : getWatchedAt dateParseNone { viewed_at := .num 0 } = none := by decide

/-- The UTF-8 byte sequence of a character, as natural numbers. -/
def utf8Bytes (c : Char) : List Nat :=
  let n := c.toNat
  if n < 128 then [n]
  else if n < 2048 then [192 + n / 64, 128 + n % 64]
  else if n < 65536 then [224 + n / 4096, 128 + (n / 64) % 64, 128 + n % 64]
  else [240 + n / 262144, 128 + (n / 4096) % 64, 128 + (n / 64) % 64, 128 + n % 64]

/-- Uppercase hexadecimal digit of a value below 16. -/
def hexDigit (n : Nat) : Char :=
  if n < 10 then Char.ofNat (48 + n) else Char.ofNat (55 + n)

/-- The characters `encodeURIComponent` leaves unescaped:
`A-Z a-z 0-9 - _ . ! ~ * ' ( )`.  (The apostrophe is written via its code
point 39.) -/
def uriUnescaped (c : Char) : Bool :=
  c.isAlphanum || c == Char.ofNat 45 || c == Char.ofNat 95 || c == Char.ofNat 46 ||
    c == Char.ofNat 33 || c == Char.ofNat 126 || c == Char.ofNat 42 ||
    c == Char.ofNat 39 || c == Char.ofNat 40 || c == Char.ofNat 41

/-- JavaScript `encodeURIComponent`: unescaped characters pass through,
everything else is percent-encoded byte-wise in UTF-8. -/
def encodeURIComponent (s : String) : String :=
  String.join (s.data.map fun c =>
    if uriUnescaped c then String.singleton c
    else String.join ((utf8Bytes c).map fun b =>
      String.mk [Char.ofNat 37, hexDigit (b / 16), hexDigit (b % 16)]))

/-- `pat` occurs as a contiguous substring of `s`. -/
def strContains (pat s : String) : Bool :=
  s.data.tails.any fun t => pat.data.isPrefixOf t

/-- JavaScript `s.startsWith(pre)` (written over the character list so the
kernel can evaluate it). -/
def strStartsWith (pre s : String) : Bool := pre.data.isPrefixOf s.data

-- sanity checks
example : encodeURIComponent "/a b" = "%2Fa%20b" := by decide
example : strContains "KEY" "apikey%3DKEY9" = true := by decide

/-- `posterFromTautulli` of the plain-Tautulli variant (server.mjs lines
597-610).  Arguments model the module-level environment: `hasTautulliEnv`,
`TAUTULLI_URL`, `TAUTULLI_KEY`; `thumb_url` and `thumb` are the two fields
the function reads from `raw` (optional chaining: an absent field fails
the `startsWith` test). -/
def posterFromTautulli (hasTautulliEnv : Bool) (tautulliUrl tautulliKey : String)
    (thumb_url thumb : Option String) : Option String :=
  if !hasTautulliEnv then none
  else if (match thumb_url with | some s => strStartsWith "http" s | none => false) then
    some ("/api/media/img?u=" ++ encodeURIComponent (thumb_url.getD ""))
  else if (match thumb with | some s => strStartsWith "/" s | none => false) then
    let u := tautulliUrl ++ "/pms/image?url=" ++ encodeURIComponent (thumb.getD "") ++
      "&width=300&height=450&fallback=poster&apikey=" ++ tautulliKey
    some ("/api/media/img?u=" ++ encodeURIComponent u)
  else none

/-- `posterFromTautulli` of the Tautulli+Plex variant (server.mjs lines
794-813): the relative-path branch targets Plex directly, appending
`X-Plex-Token`.  Arguments model `hasPlexEnv`, `PLEX_URL`,
`PLEX_TOKEN`. -/
def posterFromTautulliPlex (hasPlexEnv : Bool) (plexUrl plexToken : String)
    (thumb_url thumb : Option String) : Option String :=
  if !hasPlexEnv then none
  else if (match thumb_url with | some s => strStartsWith "http" s | none => false) then
    some ("/api/media/img?u=" ++ encodeURIComponent (thumb_url.getD ""))
  else if (match thumb with | some s => strStartsWith "/" s | none => false) then
    let plexImg := plexUrl ++ (thumb.getD "") ++ "?width=300&height=450&X-Plex-Token=" ++ plexToken
    some ("/api/media/img?u=" ++ encodeURIComponent plexImg)
  else none

/-- `posterFromJellyfin` of the Jellyfin variant (server.mjs lines 58-71):
builds a proxy URL from the item id and image tag; the Jellyfin token is
attached server-side via the `auth=jellyfin` marker and never appears in
the returned value. -/
def posterFromJellyfin (hasJellyfinEnv : Bool) (jellyfinUrl : String)
    (imageTag itemId : Option String) : Option String :=
  if !hasJellyfinEnv then none
  else
    match imageTag, itemId with
    | some tag, some i =>
      some ("/api/media/img?u=" ++
        encodeURIComponent (jellyfinUrl ++ "/Items/" ++ i ++
          "/Images/Primary?height=450&width=300&quality=96&tag=" ++ tag) ++
        "&auth=jellyfin")
    | _, _ => none

/-- A plain JavaScript object used as a counter map, modelled as an
insertion-ordered association list (the grid keys are not array indices,
so JS preserves insertion order). -/
def objGet : List (String × Nat) → String → Option Nat
  | [], _ => none
  | (k, v) :: rest, q => if k = q then some v else objGet rest q

/-- `if (data[key] !== undefined) data[key]++`: increment an existing key,
leave the object unchanged when the key is absent. -/
def objIncr : List (String × Nat) → String → List (String × Nat)
  | [], _ => []
  | (k, v) :: rest, q => if k = q then (k, v + 1) :: rest else (k, v) :: objIncr rest q

/-- `data[key] = (data[key] || 0) + 1`: increment an existing key, append
`key ↦ 1` when the key is absent (used by the Tautulli+Plex monthly
handler, which has no membership guard). -/
def objIncr0 : List (String × Nat) → String → List (String × Nat)
  | [], q => [(q, 1)]
  | (k, v) :: rest, q => if k = q then (k, v + 1) :: rest else (k, v) :: objIncr0 rest q

/-- The day names of the weekly grid, Monday first. -/
def daysList : List String := ["Mon", "Tue", "Wed", "Thu", "Fri", "Sat", "Sun"]

/-- The three-hour block names of the weekly grid. -/
def blocksList : List String :=
  ["00-03", "03-06", "06-09", "09-12", "12-15", "15-18", "18-21", "21-24"]

/-- The 56 weekly grid keys `{Day}_{Block}`, in initialisation order
(outer loop over days, inner loop over blocks). -/
def weeklyKeys : List String :=
  daysList.flatMap fun d => blocksList.map fun b => d ++ "_" ++ b

/-- The 30 monthly grid keys `day_1 .. day_30`, in initialisation
order. -/
def monthlyKeys : List String :=
  (List.range 30).map fun i => "day_" ++ toString (i + 1)

/-- A grid with every key of `ks` initialised to zero. -/
def zeroGrid (ks : List String) : List (String × Nat) := ks.map fun k => (k, 0)

/-- The weekly bucket key of one event in `buildWeeklyActivityData`:
`localOf` maps an epoch-ms timestamp to the pair
`(date.getDay(), date.getHours())` in the server's local timezone;
`getDay`'s Sunday-first index is remapped to Monday-first.  Out-of-range
values index past the JS arrays, which yields `undefined` and hence the
string `"undefined"` in the template. -/
def weeklyKeyOf (localOf : Int → Nat × Nat) (ts : Int) : String :=
  let dayOfWeek := (localOf ts).1
  let hour := (localOf ts).2
  let dayIndex := if dayOfWeek = 0 then 6 else dayOfWeek - 1
  (daysList.getD dayIndex "undefined") ++ "_" ++ (blocksList.getD (hour / 3) "undefined")

/-- `buildWeeklyActivityData` (Jellyfin variant, server.mjs lines
142-175): pre-zero all 56 cells, then for each event increment its bucket
(guarded by `data[key] !== undefined`).  Events carry a valid timestamp by
construction (`getPlaybackEvents` filters invalid dates), modelled as an
epoch-ms integer. -/
def buildWeeklyActivityData (localOf : Int → Nat × Nat) (events : List Int) :
    List (String × Nat) :=
  events.foldl (fun g ts => objIncr g (weeklyKeyOf localOf ts)) (zeroGrid weeklyKeys)

/-- The monthly bucket key of one event in `buildMonthlyActivityData`:
`diffDays = Math.floor((now - ts) / 86400000)`; in range `[0, 30)` the
event lands in `day_{30 - diffDays}`, otherwise it is dropped (`none`). -/
def monthKeyOf (now ts : Int) : Option String :=
  let diffDays := (now - ts).fdiv 86400000
  if 0 ≤ diffDays ∧ diffDays < 30 then some ("day_" ++ toString (30 - diffDays)) else none

/-- `buildMonthlyActivityData` (Jellyfin variant, server.mjs lines
177-202): pre-zero `day_1 .. day_30`, then bucket each event by
`diffDays` against `now`.  The source reads `new Date()` internally; that
clock read is the explicit `now` argument here. -/
def buildMonthlyActivityData (events : List Int) (now : Int) : List (String × Nat) :=
  events.foldl
    (fun g ts =>
      match monthKeyOf now ts with
      | some k => objIncr g k
      | none => g)
    (zeroGrid monthlyKeys)

/-- One iteration of the Tautulli+Plex monthly-activity loop (server.mjs
lines 1107-1116): resolve the record's timestamp with `getWatchedAt`; skip
falsy timestamps (`!t`, which also drops `t = 0`) and timestamps older
than `now - 30` days; otherwise, when `daysAgo < 30`, increment
`day_{30 - daysAgo}` without a membership guard. -/
def tautulliMonthlyStep (dateParse : JsVal → Option Int) (now : Int)
    (g : List (String × Nat)) (x : TautulliRecord) : List (String × Nat) :=
  match getWatchedAt dateParse x with
  | none => g
  | some t =>
    if t = 0 then g
    else if t < now - 2592000000 then g
    else
      let daysAgo := (now - t).fdiv 86400000
      if daysAgo < 30 then objIncr0 g ("day_" ++ toString (30 - daysAgo)) else g

-- sanity checks
example : weeklyKeys.length = 56 := by decide
example : monthlyKeys.length = 30 := by decide
example : objGet (buildMonthlyActivityData [0] 0) "day_30" = some 1 := by decide
example : objGet (buildWeeklyActivityData (fun _ => (0, 0)) [5]) "Sun_00-03" = some 1 := by decide

/-- One cache slot: the stored payload and its expiry instant
(`{ data, t: Date.now() + ms }`). -/
structure CacheEntry (α : Type) where
  data : α
  t : Int
deriving DecidableEq, Repr

/-- The cache `Map`, modelled as an insertion-ordered association list
(`Map.set` updates an existing key in place, otherwise appends). -/
def cacheSet {α : Type} : List (String × CacheEntry α) → String → CacheEntry α →
    List (String × CacheEntry α)
  | [], q, e => [(q, e)]
  | (k, v) :: rest, q, e => if k = q then (k, e) :: rest else (k, v) :: cacheSet rest q e

/-- `Map.get`. -/
def cacheLookup {α : Type} : List (String × CacheEntry α) → String → Option (CacheEntry α)
  | [], _ => none
  | (k, v) :: rest, q => if k = q then some v else cacheLookup rest q

/-- `setC(k, data, ms)` at wall-clock instant `now`: store the payload
with expiry `now + ms`. -/
def setC {α : Type} (cache : List (String × CacheEntry α)) (now : Int) (k : String)
    (d : α) (ms : Int) : List (String × CacheEntry α) :=
  cacheSet cache k { data := d, t := now + ms }

/-- `getC(k)` at wall-clock instant `now`: return the stored payload while
`v.t > Date.now()`, otherwise `null`. -/
def getC {α : Type} (cache : List (String × CacheEntry α)) (now : Int) (k : String) :
    Option α :=
  match cacheLookup cache k with
  | some v => if now < v.t then some v.data else none
  | none => none

/-- Outcome of the image proxy's upstream fetch: an OK response (with its
`content-type` header, possibly absent), a completed non-OK response with
its status, or a thrown exception (timeout / network error). -/
inductive ImgUpstream where
  | ok : Option String → ImgUpstream
  | bad : Nat → ImgUpstream
  | exn : ImgUpstream
deriving DecidableEq, Repr

/-- The client-visible response class of an image-proxy request. -/
inductive ImgResponse where
  | jsonError : Nat → ImgResponse
  | redirectTo : String → ImgResponse
  | pipeBody : String → ImgResponse
deriving DecidableEq, Repr

/-- The `/img` handler of the Jellyfin variant (server.mjs lines 215-258):
missing `u` → 400 JSON; non-OK upstream → redirect to the placeholder;
exception → redirect to the placeholder; OK → pipe the body with the
upstream content type (default `image/jpeg`). -/
def imgHandlerJellyfin (u : Option String) (up : ImgUpstream) : ImgResponse :=
  match u with
  | none => .jsonError 400
  | some _ =>
    match up with
    | .ok ct => .pipeBody (ct.getD "image/jpeg")
    | .bad _ => .redirectTo "/placeholder-poster.jpg"
    | .exn => .redirectTo "/placeholder-poster.jpg"

/-- The `/img` handler of the plain-Tautulli variant (server.mjs lines
617-631): missing `u` → 400 JSON; non-OK upstream → **502 JSON error
body**; exception → 500 JSON; OK → pipe the body. -/
def imgHandlerTautulli (u : Option String) (up : ImgUpstream) : ImgResponse :=
  match u with
  | none => .jsonError 400
  | some _ =>
    match up with
    | .ok ct => .pipeBody (ct.getD "image/jpeg")
    | .bad _ => .jsonError 502
    | .exn => .jsonError 500

/-- The `/img` handler of the Tautulli+Plex variant (server.mjs lines
824-859): same placeholder-redirect behaviour as the Jellyfin variant. -/
def imgHandlerTautulliPlex (u : Option String) (up : ImgUpstream) : ImgResponse :=
  match u with
  | none => .jsonError 400
  | some _ =>
    match up with
    | .ok ct => .pipeBody (ct.getD "image/jpeg")
    | .bad _ => .redirectTo "/placeholder-poster.jpg"
    | .exn => .redirectTo "/placeholder-poster.jpg"

/-- The value of a digit-only prefix, `none` when there is no leading
digit. -/
def digitsVal (ds : List Char) : Option Nat :=
  if ds.isEmpty then none else some (ds.foldl (fun a c => a * 10 + (c.toNat - 48)) 0)

/-- JavaScript `parseInt(s)` (radix 10): skip leading whitespace, read an
optional sign and the longest run of decimal digits; `none` models `NaN`.
The automatic hexadecimal mode for a `0x` prefix is outside the model (a
`0x...` input here parses as the leading `0`). -/
def jsParseInt (s : String) : Option Int :=
  let cs := s.data.dropWhile fun c => c == ' ' || c == Char.ofNat 9 || c == Char.ofNat 10 || c == Char.ofNat 13
  match cs with
  | c :: rest =>
    if c == '-' then (digitsVal (rest.takeWhile Char.isDigit)).map fun n => -(n : Int)
    else if c == '+' then (digitsVal (rest.takeWhile Char.isDigit)).map fun n => (n : Int)
    else (digitsVal (cs.takeWhile Char.isDigit)).map fun n => (n : Int)
  | [] => none

-- sanity checks
example : jsParseInt "123abc" = some 123 := by decide
example : jsParseInt "abc" = none := by decide
example : jsParseInt " -45" = some (-45) := by decide

/-- The `added_at` normalisation of the Tautulli+Plex recently-added
handler (server.mjs lines 974-980): a string is `parseInt`-ed and scaled
to milliseconds, a number below `9999999999` is scaled to milliseconds,
and any falsy result (absent field, `NaN`, `0`) falls back to
`Date.now()` — the explicit `now` argument.  A boolean `true` field would
survive as the boolean itself in JS and compare as `1` in the numeric
sort, which is how it is represented here. -/
def resolveAddedAt (now : Int) (v : JsVal) : Int :=
  match v with
  | .str s =>
    match jsParseInt s with
    | some n => if n * 1000 = 0 then now else n * 1000
    | none => now
  | .num n =>
    let a := if n < 9999999999 then n * 1000 else n
    if a = 0 then now else a
  | .bool true => 1
  | _ => now

/-- A normalised recently-watched item (the fields pushed at server.mjs
lines 881-888). -/
structure WatchedItem where
  title : JsVal
  grandparent_title : JsVal
  year : JsVal
  watched_at : Option Int
  media_type : JsVal
  poster : Option String
deriving DecidableEq, Repr

/-- A normalised recently-added item (the fields pushed at server.mjs
lines 987-994). -/
structure AddedItem where
  title : JsVal
  grandparent_title : JsVal
  year : JsVal
  added_at : Int
  media_type : JsVal
  poster : Option String
deriving DecidableEq, Repr

/-- Mapping of one raw history record to a recently-watched item
(Tautulli+Plex variant, server.mjs lines 876-888).  `hasPlexEnv`,
`plexUrl`, `plexToken` are the poster-builder environment. -/
def toWatchedItem (dateParse : JsVal → Option Int) (hasPlexEnv : Bool)
    (plexUrl plexToken : String) (x : TautulliRecord) : WatchedItem :=
  let p := posterFromTautulliPlex hasPlexEnv plexUrl plexToken x.thumb_url x.thumb
  { title := jsOr x.title (jsOr x.full_title (jsOr x.media_title
      (jsOr x.grandparent_title (.str "Unknown"))))
    grandparent_title := jsOr x.grandparent_title .null
    year := jsOr x.year .null
    watched_at := getWatchedAt dateParse x
    media_type := jsOr x.media_type (jsOr x.section_type (.str ""))
    poster :=
      match p with
      | some q => some q
      | none => posterFromTautulliPlex hasPlexEnv plexUrl plexToken x.thumb_url x.thumb }

/-- Mapping of one raw record to a recently-added item (Tautulli+Plex
variant, server.mjs lines 958-994), including the season/movie display
title logic and the poster fallback from `thumb` to `parent_thumb`. -/
def toAddedItem (hasPlexEnv : Bool) (plexUrl plexToken : String) (now : Int)
    (x : TautulliRecord) : AddedItem :=
  let displayTitle :=
    if x.media_type = .str "season" ∧ ¬jsFalsy x.parent_title then
      JsVal.str (jsToString x.parent_title ++ " — " ++ jsToString x.title)
    else if x.media_type = .str "movie" then
      jsOr x.title (jsOr x.original_title (.str "Unknown Movie"))
    else jsOr x.title (jsOr x.parent_title (jsOr x.full_title (.str "Unknown")))
  { title := displayTitle
    grandparent_title := jsOr x.parent_title (jsOr x.grandparent_title .null)
    year := jsOr x.year .null
    added_at := resolveAddedAt now x.added_at
    media_type := jsOr x.media_type (.str "")
    poster :=
      match posterFromTautulliPlex hasPlexEnv plexUrl plexToken none x.thumb with
      | some q => some q
      | none => posterFromTautulliPlex hasPlexEnv plexUrl plexToken none x.parent_thumb }

/-- The push loop shared by both handlers: map each record, then break as
soon as `items.length >= limit` (note: the check runs *after* the push, so
`limit = 0` still yields one item on a non-empty list). -/
def buildItemsAux {ρ α : Type} (f : ρ → α) (limit : Nat) :
    List ρ → List α → List α
  | [], acc => acc.reverse
  | x :: rest, acc =>
    let acc2 := f x :: acc
    if limit ≤ acc2.length then acc2.reverse else buildItemsAux f limit rest acc2

/-- The items accumulated by the handler loop before sorting. -/
def buildItems {ρ α : Type} (f : ρ → α) (limit : Nat) (l : List ρ) : List α :=
  buildItemsAux f limit l []

/-- Insert `x` (which precedes every element of `l` in the original
order) into the descending-sorted `l`: `x` passes elements with strictly
greater key and stops before the first element with key `≤ key x`, which
keeps the sort stable. -/
def insertDesc {α : Type} (key : α → Int) (x : α) : List α → List α
  | [] => [x]
  | y :: ys => if key x < key y then y :: insertDesc key x ys else x :: y :: ys

/-- `items.sort((a, b) => (key(b)) - (key(a)))`: JavaScript's stable sort
with a descending numeric comparator.  Any stable sort realises it; this
is a stable insertion sort (chosen so the kernel can evaluate it). -/
def jsSortByDesc {α : Type} (key : α → Int) : List α → List α
  | [] => []
  | x :: xs => insertDesc key x (jsSortByDesc key xs)

/-- The recently-watched items payload (Tautulli+Plex variant, server.mjs
lines 876-893): push up to `limit` mapped records, then sort newest first
by `watched_at || 0`. -/
def recentlyWatchedItems (dateParse : JsVal → Option Int) (hasPlexEnv : Bool)
    (plexUrl plexToken : String) (limit : Nat) (records : List TautulliRecord) :
    List WatchedItem :=
  jsSortByDesc (fun it => it.watched_at.getD 0)
    (buildItems (toWatchedItem dateParse hasPlexEnv plexUrl plexToken) limit records)

/-- The recently-added items payload (Tautulli+Plex variant, server.mjs
lines 957-999): push up to `limit` mapped records, then sort newest first
by `added_at || 0`. -/
def recentlyAddedItems (hasPlexEnv : Bool) (plexUrl plexToken : String) (now : Int)
    (limit : Nat) (records : List TautulliRecord) : List AddedItem :=
  jsSortByDesc (fun it => it.added_at)
    (buildItems (toAddedItem hasPlexEnv plexUrl plexToken now) limit records)

-- sanity checks
example :
    (recentlyAddedItems false "" "" 777 3
      [{ added_at := .num 1000000 }, { added_at := .num 2000000 },
       { added_at := .num 3000000 }, { added_at := .num 5000000 },
       { added_at := .num 4000000 }]).map (fun it => it.added_at) =
    [3000000000, 2000000000, 1000000000] := by decide

/-- The Tautulli+Plex monthly-activity aggregation (server.mjs lines
1097-1116): seed `day_1 .. day_30` with zero, then run the bucketing loop
over the fetched history records. -/
def tautulliMonthlyData (dateParse : JsVal → Option Int) (now : Int)
    (records : List TautulliRecord) : List (String × Nat) :=
  records.foldl (tautulliMonthlyStep dateParse now) (zeroGrid monthlyKeys)

theorem insertDesc_perm {α : Type} (key : α → Int) (x : α) (l : List α) :
    List.Perm (insertDesc key x l) (x :: l) := by
  induction l with
  | nil => simp [insertDesc]
  | cons y ys ih =>
    simp only [insertDesc]
    by_cases h : key x < key y
    · rw [if_pos h]
      exact (ih.cons y).trans (List.Perm.swap x y ys)
    · rw [if_neg h]

theorem jsSortByDesc_perm {α : Type} (key : α → Int) (l : List α) :
    List.Perm (jsSortByDesc key l) l := by
  induction l with
  | nil => simp [jsSortByDesc]
  | cons x xs ih =>
    simpa [jsSortByDesc] using (insertDesc_perm key x (jsSortByDesc key xs)).trans (ih.cons x)

theorem length_jsSortByDesc {α : Type} (key : α → Int) (l : List α) :
    (jsSortByDesc key l).length = l.length :=
  (jsSortByDesc_perm key l).length_eq

theorem pairwise_insertDesc {α : Type} (key : α → Int) (x : α) (l : List α)
    (h : l.Pairwise fun a b => key b ≤ key a) :
    (insertDesc key x l).Pairwise fun a b => key b ≤ key a := by
  induction l with
  | nil => simp [insertDesc]
  | cons y ys ih =>
    rcases List.pairwise_cons.mp h with ⟨hy, hys⟩
    simp only [insertDesc]
    by_cases hxy : key x < key y
    · rw [if_pos hxy]
      refine List.pairwise_cons.mpr ⟨?_, ih hys⟩
      intro z hz
      rcases List.mem_cons.mp ((insertDesc_perm key x ys).mem_iff.mp hz) with rfl | hz
      · exact le_of_lt hxy
      · exact hy z hz
    · rw [if_neg hxy]
      refine List.pairwise_cons.mpr ⟨?_, h⟩
      intro z hz
      rcases List.mem_cons.mp hz with rfl | hz
      · exact le_of_not_lt hxy
      · exact (hy z hz).trans (le_of_not_lt hxy)

theorem jsSortByDesc_sorted {α : Type} (key : α → Int) (l : List α) :
    (jsSortByDesc key l).Pairwise fun a b => key b ≤ key a := by
  induction l with
  | nil => simp [jsSortByDesc]
  | cons x xs ih => exact pairwise_insertDesc key x _ ih

theorem buildItemsAux_eq {ρ α : Type} (f : ρ → α) (limit : Nat) :
    ∀ (l : List ρ) (acc : List α), acc.length < limit →
      buildItemsAux f limit l acc = acc.reverse ++ (l.take (limit - acc.length)).map f
  | [], acc, _ => by simp [buildItemsAux]
  | x :: rest, acc, hlt => by
    simp only [buildItemsAux]
    by_cases hstop : limit ≤ (f x :: acc).length
    · rw [if_pos hstop]
      have hlim : limit - acc.length = 1 := by
        simp only [List.length_cons] at hstop; omega
      simp [hlim]
    · have hlt2 : (f x :: acc).length < limit := by
        simp only [List.length_cons] at hstop ⊢; omega
      rw [if_neg hstop, buildItemsAux_eq f limit rest (f x :: acc) hlt2]
      have hlim : limit - acc.length = (limit - (f x :: acc).length) + 1 := by
        simp only [List.length_cons]; omega
      simp [hlim, List.take_succ_cons]

theorem buildItems_eq_take {ρ α : Type} (f : ρ → α) (limit : Nat) (l : List ρ)
    (h : 1 ≤ limit) : buildItems f limit l = (l.take limit).map f := by
  simpa [buildItems] using buildItemsAux_eq f limit l [] (by simpa using h)

theorem objGet_objIncr (g : List (String × Nat)) (q k : String) :
    objGet (objIncr g q) k = if q = k then (objGet g k).map (· + 1) else objGet g k := by
  induction g with
  | nil => by_cases h : q = k <;> simp [objIncr, objGet, h]
  | cons p rest ih =>
    obtain ⟨k0, v⟩ := p
    by_cases h0 : k0 = q
    · subst h0
      by_cases h : k0 = k
      · subst h; simp [objIncr, objGet]
      · simp [objIncr, objGet, h]
    · by_cases h : k0 = k
      · subst h
        simp [objIncr, objGet, h0, Ne.symm h0]
      · simp [objIncr, objGet, h0, h, ih]

theorem keys_objIncr (g : List (String × Nat)) (q : String) :
    (objIncr g q).map Prod.fst = g.map Prod.fst := by
  induction g with
  | nil => rfl
  | cons p rest ih =>
    obtain ⟨k0, v⟩ := p
    by_cases h : k0 = q <;> simp [objIncr, h, ih]

theorem objGet_zeroGrid (ks : List String) (k : String) :
    objGet (zeroGrid ks) k = if k ∈ ks then some 0 else none := by
  induction ks with
  | nil => simp [zeroGrid, objGet]
  | cons a ks ih =>
    by_cases h : a = k
    · subst h; simp [zeroGrid, objGet]
    · simp only [zeroGrid, List.map_cons, objGet, if_neg h]
      rw [show (List.map (fun k => (k, 0)) ks) = zeroGrid ks from rfl, ih]
      simp [List.mem_cons, Ne.symm h]

/-- Generic bucket accumulation: each event either increments an existing
key or is dropped. -/
def bucketFold {ε : Type} (keyOf : ε → Option String) (g0 : List (String × Nat))
    (evs : List ε) : List (String × Nat) :=
  evs.foldl
    (fun g e =>
      match keyOf e with
      | some q => objIncr g q
      | none => g)
    g0

theorem keys_bucketFold {ε : Type} (keyOf : ε → Option String) (evs : List ε) :
    ∀ g0 : List (String × Nat),
      (bucketFold keyOf g0 evs).map Prod.fst = g0.map Prod.fst := by
  induction evs with
  | nil => intro g0; rfl
  | cons e evs ih =>
    intro g0
    show (bucketFold keyOf _ evs).map Prod.fst = _
    rw [ih]
    cases h : keyOf e <;> simp [h, keys_objIncr]

theorem objGet_bucketFold {ε : Type} (keyOf : ε → Option String) (evs : List ε) :
    ∀ (g0 : List (String × Nat)) (k : String) (n : Nat), objGet g0 k = some n →
      objGet (bucketFold keyOf g0 evs) k =
        some (n + evs.countP fun e => keyOf e == some k) := by
  induction evs with
  | nil => intro g0 k n h; simpa [bucketFold] using h
  | cons e evs ih =>
    intro g0 k n h
    cases hk : keyOf e with
    | none =>
      have hb : bucketFold keyOf g0 (e :: evs) = bucketFold keyOf g0 evs := by
        simp [bucketFold, hk]
      rw [hb, ih _ k n h]
      simp [List.countP_cons, hk]
    | some q =>
      have hb : bucketFold keyOf g0 (e :: evs) = bucketFold keyOf (objIncr g0 q) evs := by
        simp [bucketFold, hk]
      by_cases hqk : q = k
      · subst hqk
        have hg : objGet (objIncr g0 q) q = some (n + 1) := by
          simp [objGet_objIncr, h]
        rw [hb, ih _ q (n + 1) hg]
        simp only [List.countP_cons, hk]
        simp
        omega
      · have hg : objGet (objIncr g0 q) k = some n := by
          simp [objGet_objIncr, hqk, h]
        rw [hb, ih _ k n hg]
        simp [List.countP_cons, hk, hqk]

theorem buildWeekly_eq_bucketFold (localOf : Int → Nat × Nat) (events : List Int) :
    buildWeeklyActivityData localOf events =
      bucketFold (fun ts => some (weeklyKeyOf localOf ts)) (zeroGrid weeklyKeys) events := rfl

theorem buildMonthly_eq_bucketFold (events : List Int) (now : Int) :
    buildMonthlyActivityData events now =
      bucketFold (monthKeyOf now) (zeroGrid monthlyKeys) events := rfl

theorem cacheLookup_cacheSet {α : Type} (cache : List (String × CacheEntry α))
    (k : String) (e : CacheEntry α) : cacheLookup (cacheSet cache k e) k = some e := by
  induction cache with
  | nil => simp [cacheSet, cacheLookup]
  | cons p rest ih =>
    obtain ⟨k0, v⟩ := p
    by_cases h : k0 = k <;> simp [cacheSet, cacheLookup, h, ih]

/-- C1: the claim says the poster builder's returned value never contains
the backend's raw credential and is unchanged under any change of the
credential value.  The code contradicts this (and its own "never expose
upstream tokens to the browser" comments): in the relative-path branch,
both Tautulli-variant builders splice the raw `apikey` /
`X-Plex-Token` credential into the upstream URL and return it inside the
`u=` query parameter, where an alphanumeric credential survives
`encodeURIComponent` verbatim; consequently the returned value also
changes when the credential changes. -/
theorem posterFromTautulli_embeds_credential :
    strContains "SECRETAPIKEY"
      ((posterFromTautulli true "http://tautulli:8181" "SECRETAPIKEY"
        none (some "/library/metadata/1/thumb")).getD "") = true ∧
    posterFromTautulli true "http://tautulli:8181" "KEYONE"
        none (some "/library/metadata/1/thumb") ≠
      posterFromTautulli true "http://tautulli:8181" "KEYTWO"
        none (some "/library/metadata/1/thumb") ∧
    strContains "SECRETPLEXTOKEN"
      ((posterFromTautulliPlex true "http://plex:32400" "SECRETPLEXTOKEN"
        none (some "/library/metadata/1/thumb")).getD "") = true ∧
    posterFromTautulliPlex true "http://plex:32400" "TOKENONE"
        none (some "/library/metadata/1/thumb") ≠
      posterFromTautulliPlex true "http://plex:32400" "TOKENTWO"
        none (some "/library/metadata/1/thumb") :=
  ⟨by decide, by decide, by decide, by decide⟩

/-- C2 counterexample: at the claimed boundary `v = 100000` the extractor
does **not** return `v * 1000`: the code's lower bound is strict
(`c > 100000`), so `100000` falls through to `Date.parse`, which fails on
the bare numeral (see `dateParseNone`), and the scan returns null. -/
theorem getWatchedAt_boundary_fails :
    getWatchedAt dateParseNone { viewed_at := .num 100000 } ≠ some (100000 * 1000) := by
  decide

/-- C2 (amended): for every `Date.parse` model, a numeric candidate `v`
with `100000 < v < 9999999999` (strict lower bound) yields `v * 1000`,
and `v ≥ 9999999999` yields `v` unchanged. -/
theorem getWatchedAt_numeric_ranges (dateParse : JsVal → Option Int) (n : Int)
    (rest : List JsVal) :
    (100000 < n ∧ n < 9999999999 →
      scanWatchedAt dateParse (.num n :: rest) = some (n * 1000)) ∧
    (9999999999 ≤ n → scanWatchedAt dateParse (.num n :: rest) = some n) := by
  constructor
  · rintro ⟨h1, h2⟩
    have hne : (n == 0) = false := by simp; omega
    simp [scanWatchedAt, jsFalsy, hne, h1, h2]
  · intro h
    have hne : (n == 0) = false := by simp; omega
    have h1 : ¬(100000 < n ∧ n < 9999999999) := by omega
    simp [scanWatchedAt, jsFalsy, hne, h1, h]

theorem getWatchedAt_numeric_ranges_witness :
    scanWatchedAt dateParseNone [.num 200000] = some (200000 * 1000) ∧
    scanWatchedAt dateParseNone [.num 10000000000] = some 10000000000 :=
  ⟨(getWatchedAt_numeric_ranges dateParseNone 200000 []).1 (by constructor <;> decide),
   (getWatchedAt_numeric_ranges dateParseNone 10000000000 []).2 (by decide)⟩

/-- C9: a falsy candidate value (`0`, `""`, `null`, `false`, absent) is
skipped by the scan exactly as if absent, and a record whose only
candidate value is the integer `0` resolves to null, never to `0`. -/
theorem falsy_candidate_skipped (dateParse : JsVal → Option Int) (v : JsVal)
    (rest : List JsVal) (h : jsFalsy v = true) :
    scanWatchedAt dateParse (v :: rest) = scanWatchedAt dateParse rest ∧
    getWatchedAt dateParse { viewed_at := .num 0 } = none := by
  constructor
  · cases v <;> simp_all [scanWatchedAt, jsFalsy]
  · rfl

theorem falsy_candidate_skipped_witness :
    scanWatchedAt dateParseNone (JsVal.num 0 :: [JsVal.num 200000]) =
      scanWatchedAt dateParseNone [JsVal.num 200000] ∧
    getWatchedAt dateParseNone { viewed_at := .num 0 } = none :=
  falsy_candidate_skipped dateParseNone (JsVal.num 0) [JsVal.num 200000] (by decide)

/-- C8 counterexample: the plain-Tautulli variant's image proxy answers a
completed 404 upstream response with a **502 JSON error body**, not a
redirect to the placeholder. -/
theorem imgHandlerTautulli_json_on_404 :
    imgHandlerTautulli (some "http://img.example/p.jpg") (.bad 404) = .jsonError 502 ∧
    imgHandlerTautulli (some "http://img.example/p.jpg") (.bad 404) ≠
      .redirectTo "/placeholder-poster.jpg" := by
  exact ⟨rfl, by decide⟩

/-- C8 (amended): the Jellyfin and Tautulli+Plex variants redirect to the
static placeholder on every non-OK upstream status and on fetch
exceptions; the plain-Tautulli variant instead returns a 502 JSON error
body on non-OK upstream (and 500 on exception). -/
theorem imgHandler_upstream_failure (u : String) (s : Nat) :
    imgHandlerJellyfin (some u) (.bad s) = .redirectTo "/placeholder-poster.jpg" ∧
    imgHandlerJellyfin (some u) .exn = .redirectTo "/placeholder-poster.jpg" ∧
    imgHandlerTautulliPlex (some u) (.bad s) = .redirectTo "/placeholder-poster.jpg" ∧
    imgHandlerTautulliPlex (some u) .exn = .redirectTo "/placeholder-poster.jpg" ∧
    imgHandlerTautulli (some u) (.bad s) = .jsonError 502 ∧
    imgHandlerTautulli (some u) .exn = .jsonError 500 :=
  ⟨rfl, rfl, rfl, rfl, rfl, rfl⟩

/-- C10: a read strictly inside the TTL window returns exactly the stored
payload, a read at or after expiry returns null, and a later write to the
same key wins. -/
theorem cache_ttl_semantics {α : Type} (cache : List (String × CacheEntry α))
    (k : String) (d : α) (ms wnow rnow : Int) (hms : 0 < ms) :
    (rnow < wnow + ms → getC (setC cache wnow k d ms) rnow k = some d) ∧
    (wnow + ms ≤ rnow → getC (setC cache wnow k d ms) rnow k = none) ∧
    (∀ (d2 : α) (ms2 now2 : Int), rnow < now2 + ms2 →
      getC (setC (setC cache wnow k d ms) now2 k d2 ms2) rnow k = some d2) := by
  refine ⟨?_, ?_, ?_⟩
  · intro h
    simp [getC, setC, cacheLookup_cacheSet, h]
  · intro h
    simp [getC, setC, cacheLookup_cacheSet]
    omega
  · intro d2 ms2 now2 h
    simp [getC, setC, cacheLookup_cacheSet, h]

theorem scanWatchedAt_falsy (dateParse : JsVal → Option Int) :
    ∀ cs : List JsVal, (∀ c ∈ cs, jsFalsy c = true) → scanWatchedAt dateParse cs = none
  | [], _ => rfl
  | c :: rest, h => by
    have hc : jsFalsy c = true := h c (List.mem_cons_self c rest)
    have hrest : ∀ c ∈ rest, jsFalsy c = true := fun d hd => h d (List.mem_cons_of_mem c hd)
    cases c <;>
      simp_all [scanWatchedAt, jsFalsy, scanWatchedAt_falsy dateParse rest hrest]

theorem keys_zeroGrid (ks : List String) : (zeroGrid ks).map Prod.fst = ks := by
  induction ks with
  | nil => rfl
  | cons a ks ih =>
    simp only [zeroGrid, List.map_cons, List.map_map] at ih ⊢
    rw [ih]

/-- Five recently-added records with pairwise-distinct `added_at`
timestamps (epoch seconds), deliberately not in chronological order: the
newest record sits in fourth position. -/
def addedRecordsEx : List TautulliRecord :=
  [{ title := .str "A", added_at := .num 1000000 },
   { title := .str "B", added_at := .num 2000000 },
   { title := .str "C", added_at := .num 3000000 },
   { title := .str "D", added_at := .num 5000000 },
   { title := .str "E", added_at := .num 4000000 }]

/-- A record carrying no timestamp field at all. -/
def noTimestampRecord : TautulliRecord := { title := .str "NoTimestamp" }

/-- A record with `added_at` present (epoch seconds). -/
def withTimestampRecord : TautulliRecord :=
  { title := .str "HasTimestamp", added_at := .num 1000000 }

/-- C3 counterexample: with limit 3 over the five distinct-timestamp
records of `addedRecordsEx`, the handler returns the **first three**
records of the upstream order sorted descending — `3e9, 2e9, 1e9` — and
the globally newest timestamp `5e9` is absent, because the loop truncates
to the limit *before* sorting. -/
theorem recentlyAdded_not_greatest :
    (recentlyAddedItems false "" "" 1700000000000 3 addedRecordsEx).map
        (fun it => it.added_at) = [3000000000, 2000000000, 1000000000] ∧
    5000000000 ∉ (recentlyAddedItems false "" "" 1700000000000 3 addedRecordsEx).map
        (fun it => it.added_at) :=
  ⟨by decide, by decide⟩

/-- C3 (amended): for `limit ≥ 1` both assemblers return exactly
`min(limit, n)` items, namely the **first** `limit` records of the input
order mapped and then sorted by resolved timestamp descending (truncate,
then sort); when those timestamps are pairwise distinct the output order
is strictly descending. -/
theorem assemblers_truncate_then_sort (dateParse : JsVal → Option Int) (hasPlex : Bool)
    (pUrl pTok : String) (now : Int) (limit : Nat) (records : List TautulliRecord)
    (h : 1 ≤ limit) :
    (recentlyAddedItems hasPlex pUrl pTok now limit records).length =
      min limit records.length ∧
    recentlyAddedItems hasPlex pUrl pTok now limit records =
      jsSortByDesc (fun it => it.added_at)
        ((records.take limit).map (toAddedItem hasPlex pUrl pTok now)) ∧
    (((records.take limit).map fun r => resolveAddedAt now r.added_at).Nodup →
      (recentlyAddedItems hasPlex pUrl pTok now limit records).Pairwise
        fun a b => b.added_at < a.added_at) ∧
    (recentlyWatchedItems dateParse hasPlex pUrl pTok limit records).length =
      min limit records.length ∧
    recentlyWatchedItems dateParse hasPlex pUrl pTok limit records =
      jsSortByDesc (fun it => it.watched_at.getD 0)
        ((records.take limit).map (toWatchedItem dateParse hasPlex pUrl pTok)) := by
  have headd : recentlyAddedItems hasPlex pUrl pTok now limit records =
      jsSortByDesc (fun it => it.added_at)
        ((records.take limit).map (toAddedItem hasPlex pUrl pTok now)) := by
    unfold recentlyAddedItems
    rw [buildItems_eq_take _ _ _ h]
  have hwat : recentlyWatchedItems dateParse hasPlex pUrl pTok limit records =
      jsSortByDesc (fun it => it.watched_at.getD 0)
        ((records.take limit).map (toWatchedItem dateParse hasPlex pUrl pTok)) := by
    unfold recentlyWatchedItems
    rw [buildItems_eq_take _ _ _ h]
  refine ⟨?_, headd, ?_, ?_, hwat⟩
  · rw [headd, length_jsSortByDesc, List.length_map, List.length_take]
  · intro hnd
    rw [headd]
    set L := (records.take limit).map (toAddedItem hasPlex pUrl pTok now) with hL
    have hkeys : L.map (fun it => it.added_at) =
        (records.take limit).map fun r => resolveAddedAt now r.added_at := by
      rw [hL, List.map_map]; rfl
    have hnd2 : (L.map fun it => it.added_at).Nodup := by rw [hkeys]; exact hnd
    have hperm : List.Perm ((jsSortByDesc (fun it => it.added_at) L).map fun it => it.added_at)
        (L.map fun it => it.added_at) :=
      (jsSortByDesc_perm (fun it => it.added_at) L).map _
    have hnd3 : ((jsSortByDesc (fun it => it.added_at) L).map fun it => it.added_at).Nodup :=
      hperm.nodup_iff.mpr hnd2
    have hne : (jsSortByDesc (fun it => it.added_at) L).Pairwise
        fun a b => a.added_at ≠ b.added_at := List.pairwise_map.mp hnd3
    have hsorted := jsSortByDesc_sorted (fun it => it.added_at) L
    exact (hsorted.and hne).imp fun hab => lt_of_le_of_ne hab.1 (Ne.symm hab.2)
  · rw [hwat, length_jsSortByDesc, List.length_map, List.length_take]

theorem assemblers_truncate_then_sort_witness :
    (recentlyAddedItems false "" "" 1700000000000 3 addedRecordsEx).length =
      min 3 addedRecordsEx.length ∧
    (recentlyAddedItems false "" "" 1700000000000 3 addedRecordsEx).Pairwise
      (fun a b => b.added_at < a.added_at) := by
  obtain ⟨h1, _, h3, _, _⟩ := assemblers_truncate_then_sort dateParseNone false "" ""
    1700000000000 3 addedRecordsEx (by decide)
  exact ⟨h1, h3 (by decide)⟩

/-- C4: monthly bucketing: for every key of the fixed grid, the cell
value is the number of events whose `daysAgo` lies in `[0, 30)` and whose
computed key `day_{30 - daysAgo}` matches; an in-range event maps to
exactly that key, an event `now - 5` days lands in `day_25`, an event 30
or more days old maps to no key (dropped), and — in the Tautulli+Plex
handler — a record whose timestamp resolves to null increments nothing. -/
theorem monthly_bucketing (events : List Int) (now : Int) (k : String)
    (hk : k ∈ monthlyKeys) :
    objGet (buildMonthlyActivityData events now) k =
      some (events.countP fun ts => monthKeyOf now ts == some k) ∧
    (∀ ts, 0 ≤ (now - ts).fdiv 86400000 → (now - ts).fdiv 86400000 < 30 →
      monthKeyOf now ts = some ("day_" ++ toString (30 - (now - ts).fdiv 86400000))) ∧
    monthKeyOf now (now - 5 * 86400000) = some "day_25" ∧
    (∀ ts, 30 ≤ (now - ts).fdiv 86400000 → monthKeyOf now ts = none) ∧
    (∀ (dateParse : JsVal → Option Int) (g : List (String × Nat)) (x : TautulliRecord),
      getWatchedAt dateParse x = none → tautulliMonthlyStep dateParse now g x = g) := by
  refine ⟨?_, ?_, ?_, ?_, ?_⟩
  · rw [buildMonthly_eq_bucketFold]
    have h0 := objGet_zeroGrid monthlyKeys k
    rw [if_pos hk] at h0
    have hb := objGet_bucketFold (monthKeyOf now) events _ k 0 h0
    simpa using hb
  · intro ts h1 h2
    simp [monthKeyOf, h1, h2]
  · have hns : now - (now - 5 * 86400000) = 432000000 := by ring
    simp only [monthKeyOf, hns]
    decide
  · intro ts hge
    simp only [monthKeyOf, ite_eq_right_iff]
    intro hc
    exact absurd hc.2 (by omega)
  · intro dateParse g x hx
    simp [tautulliMonthlyStep, hx]

theorem monthly_bucketing_witness :
    objGet (buildMonthlyActivityData [0] 0) "day_30" = some 1 ∧
    monthKeyOf 0 0 = some "day_30" ∧
    monthKeyOf 0 (0 - 5 * 86400000) = some "day_25" ∧
    monthKeyOf 0 (-2592000000) = none ∧
    tautulliMonthlyStep dateParseNone 0 (zeroGrid monthlyKeys) {} = zeroGrid monthlyKeys := by
  obtain ⟨h1, h2, h3, h4, h5⟩ := monthly_bucketing [0] 0 "day_30" (by decide)
  refine ⟨?_, ?_, h3, h4 (-2592000000) (by decide), h5 dateParseNone _ {} (by decide)⟩
  · rw [h1]; decide
  · have := h2 0 (by decide) (by decide)
    simpa using this

/-- C5 counterexample: `buildMonthlyActivityData` reads the clock inside
(`new Date()`), so the same single-event list yields different grids at
two different wall-clock instants — the event lands in `day_30` at the
first instant and is dropped 30 days later. -/
theorem buildMonthly_clock_sensitive :
    buildMonthlyActivityData [0] 0 ≠ buildMonthlyActivityData [0] 2592000000 := by
  decide

/-- C5 (amended): the weekly aggregator takes no reference time at all:
its grid is fully determined by the event list and the ambient local-time
conversion, each cell being a pure count over the events.  (The monthly
aggregator, by contrast, depends on its internal clock read — see the
counterexample.) -/
theorem weekly_aggregator_pure (localOf : Int → Nat × Nat) (events : List Int)
    (k : String) (hk : k ∈ weeklyKeys) :
    objGet (buildWeeklyActivityData localOf events) k =
      some (events.countP fun ts => weeklyKeyOf localOf ts == k) := by
  rw [buildWeekly_eq_bucketFold]
  have h0 := objGet_zeroGrid weeklyKeys k
  rw [if_pos hk] at h0
  have hb := objGet_bucketFold (fun ts => some (weeklyKeyOf localOf ts)) events _ k 0 h0
  have hc : List.countP (fun e => (some (weeklyKeyOf localOf e) : Option String) == some k)
      events = List.countP (fun ts => weeklyKeyOf localOf ts == k) events :=
    List.countP_congr fun a _ => Iff.rfl
  rw [hb, Nat.zero_add, hc]

theorem weekly_aggregator_pure_witness :
    objGet (buildWeeklyActivityData (fun _ => (0, 0)) [0]) "Sun_00-03" = some 1 := by
  have h := weekly_aggregator_pure (fun _ => (0, 0)) [0] "Sun_00-03" (by decide)
  rw [h]; decide

/-- C6: for every input (including the empty list), the weekly grid holds
exactly the 56 fixed keys and the monthly grid exactly the 30 fixed keys,
in initialisation order, each pre-zeroed (counts are naturals, hence
non-negative); no key is dropped and none is added. -/
theorem grids_fixed_keys (localOf : Int → Nat × Nat) (events mevents : List Int)
    (now : Int) :
    (buildWeeklyActivityData localOf events).map Prod.fst = weeklyKeys ∧
    (buildMonthlyActivityData mevents now).map Prod.fst = monthlyKeys ∧
    buildWeeklyActivityData localOf [] = zeroGrid weeklyKeys ∧
    buildMonthlyActivityData [] now = zeroGrid monthlyKeys ∧
    weeklyKeys.length = 56 ∧ monthlyKeys.length = 30 := by
  refine ⟨?_, ?_, rfl, rfl, by decide, by decide⟩
  · rw [buildWeekly_eq_bucketFold, keys_bucketFold, keys_zeroGrid]
  · rw [buildMonthly_eq_bucketFold, keys_bucketFold, keys_zeroGrid]

/-- C7 counterexample: in the recently-added handler a record lacking
`added_at` is **not** treated as null/epoch-0: it is assigned `Date.now()`
(here `1.7e12`) and therefore sorts *first*, ahead of the record with a
real resolved timestamp, contradicting "sorts after all records with a
resolved timestamp". -/
theorem recentlyAdded_missing_ts_sorts_first :
    (recentlyAddedItems false "" "" 1700000000000 2
        [noTimestampRecord, withTimestampRecord]).map (fun it => (it.title, it.added_at)) =
      [(JsVal.str "NoTimestamp", 1700000000000), (JsVal.str "HasTimestamp", 1000000000)] := by
  decide

/-- C7 (amended): in the recently-watched handler a record lacking every
candidate resolves to a null timestamp, is treated as 0 by the sort key,
and ends up after every record whose resolved timestamp is positive; in
the recently-added handler a record lacking `added_at` is instead
assigned the current wall-clock time. -/
theorem missing_timestamp_handling (dateParse : JsVal → Option Int) (hasPlex : Bool)
    (pUrl pTok : String) (limit : Nat) (records : List TautulliRecord) (now : Int)
    (x : TautulliRecord) :
    ((∀ c ∈ candidatesOf x, jsFalsy c = true) → getWatchedAt dateParse x = none) ∧
    ((recentlyWatchedItems dateParse hasPlex pUrl pTok limit records).Pairwise
      fun a b => a.watched_at = none → b.watched_at.getD 0 ≤ 0) ∧
    (x.added_at = .undef → (toAddedItem hasPlex pUrl pTok now x).added_at = now) := by
  refine ⟨?_, ?_, ?_⟩
  · intro hall
    exact scanWatchedAt_falsy dateParse (candidatesOf x) hall
  · have hsorted := jsSortByDesc_sorted (fun it => it.watched_at.getD 0)
      (buildItems (toWatchedItem dateParse hasPlex pUrl pTok) limit records)
    exact hsorted.imp fun hle ha => by simpa [ha] using hle
  · intro hx
    show resolveAddedAt now x.added_at = now
    rw [hx]
    rfl

theorem missing_timestamp_handling_witness :
    getWatchedAt dateParseNone {} = none ∧
    ((recentlyWatchedItems dateParseNone false "" "" 12
        [noTimestampRecord, withTimestampRecord]).Pairwise
      fun a b => a.watched_at = none → b.watched_at.getD 0 ≤ 0) ∧
    (toAddedItem false "" "" 5 {}).added_at = 5 := by
  obtain ⟨h1, h2, h3⟩ := missing_timestamp_handling dateParseNone false "" "" 12
    [noTimestampRecord, withTimestampRecord] 5 {}
  exact ⟨h1 (by decide), h2, h3 rfl⟩

theorem cache_ttl_semantics_witness :
    getC (setC ([] : List (String × CacheEntry Nat)) 0 "k" 7 10) 5 "k" = some 7 ∧
    getC (setC ([] : List (String × CacheEntry Nat)) 0 "k" 7 10) 10 "k" = none ∧
    getC (setC (setC ([] : List (String × CacheEntry Nat)) 0 "k" 7 10) 2 "k" 9 10) 5 "k" =
      some 9 :=
  ⟨(cache_ttl_semantics [] "k" 7 10 0 5 (by decide)).1 (by decide),
   (cache_ttl_semantics [] "k" 7 10 0 10 (by decide)).2.1 (by decide),
   (cache_ttl_semantics [] "k" 7 10 0 5 (by decide)).2.2 9 10 2 (by decide)⟩
